import Mathlib

-- Batteries marks the arithmetic on `Rat` `@[irreducible]`; reopen it so
-- that concrete scenarios evaluate by `decide`.
unseal Rat.mul Rat.add Rat.inv Rat.sub Rat.ofScientific

/-!
# Shallow embedding of `billing_platform/backend/server.py`

The repository is a usage-based billing backend: a SQLite store of
customers, usage events, invoices and invoice line items, with four core
operations (`create_customer`, `insert_events`, `get_usage`,
`generate_invoices`) plus read-only listing, fronted by a tiny HTTP layer
(`BillingRequestHandler`).

Embedding conventions, each justified against the source:

* SQLite rows become Lean structures, the database a `DB` record of row
  lists.  `AUTOINCREMENT` primary keys are modelled by counters
  (`next_customer_id`, `next_invoice_id`); the `id` columns of `events`
  and `invoice_line_items` are omitted because no query in `server.py`
  ever reads them (only `invoices.id` is referenced, by the line-item
  foreign key and by `list_invoices`).
* Python `float` values (quantities, unit prices, amounts, totals) are
  embedded as exact rationals `ℚ`: the code performs only `float(...)`
  coercion, `*` and `+`.
* Timestamps are stored as the ISO-8601 strings the code stores
  (`datetime.fromisoformat(x).isoformat()`), and range conditions such as
  `ts_event >= ? AND ts_event < ?` are string comparisons, exactly as
  SQLite compares TEXT columns (byte-lexicographic, which on the ASCII
  strings involved coincides with Lean's `String` order).
* `datetime.fromisoformat` / `datetime.isoformat` / `strptime(p, "%Y-%m")`
  are modelled for the grammar CPython accepts: 4-digit year, 2-digit
  month/day with real calendar validation (leap years included), an
  arbitrary single separator character before the time part, `HH:MM`,
  `HH:MM:SS`, optional `.fff` / `.ffffff` fractions; `%Y-%m` accepts a
  4-digit year, `-`, and a month `1-9`, `01-09` or `10-12` with nothing
  following.  Timezone offsets are outside the model (never used by the
  repository's data or tests).
* Raised Python exceptions become an explicit result `Except PyErr`:
  `ValueError` (mapped to HTTP 400, the spec's `ValidationError`),
  `TypeError` (uncaught by the `except ValueError` arm, hence HTTP 500),
  and `sqlite3.IntegrityError` (constraint violations, also HTTP 500).
  Both `insert_events` and `generate_invoices` run
  `PRAGMA foreign_keys=ON` on their connections, so the embedding checks
  the `events.customer_id -> customers.id`,
  `invoices.customer_id -> customers.id` and
  `invoice_line_items.invoice_id -> invoices.id` foreign keys.  None of
  the tables declares `ON DELETE CASCADE`, so deleting an invoice that
  still has line items fails the statement with `IntegrityError`.
* Transactionality follows the `sqlite3` module's semantics: a connection
  closed without `commit` rolls back, so a failed `insert_events` batch
  leaves the store unchanged (all-or-nothing); `generate_invoices`
  commits after the bare `DELETE` (line 265) and again after each
  customer's invoice is completed (line 287), so per-customer results
  committed before a failure persist.
-/

/-- Python exception classes that the embedded code can raise.
`valueError` is what `do_POST` maps to HTTP 400 (the spec's
`ValidationError`); everything else falls to the generic 500 arm. -/
inductive PyErr where
  | valueError
  | typeError
  | integrityError
deriving DecidableEq, Repr

deriving instance DecidableEq for Except

/-- The HTTP status that `BillingRequestHandler.do_POST` produces for a
core-operation result: success is 201, `ValueError` is caught and mapped
to 400, any other exception falls through to the 500 arm. -/
def statusOf : Except PyErr Nat → Nat
  | .ok _ => 201
  | .error .valueError => 400
  | .error _ => 500

/-! ## Model of `datetime.fromisoformat`, `isoformat`, `strptime("%Y-%m")` -/

/-- `datetime` value: year, month, day, hour, minute, second, microsecond. -/
structure PyDateTime where
  year : Nat
  month : Nat
  day : Nat
  hour : Nat
  minute : Nat
  second : Nat
  micro : Nat
deriving DecidableEq, Repr

def isLeap (y : Nat) : Bool :=
  (y % 4 == 0 && y % 100 != 0) || y % 400 == 0

def daysInMonth (y m : Nat) : Nat :=
  if m = 2 then (if isLeap y then 29 else 28)
  else if m = 4 ∨ m = 6 ∨ m = 9 ∨ m = 11 then 30
  else 31

def digitVal (c : Char) : Option Nat :=
  if c.isDigit then some (c.toNat - 48) else none

/-- Read exactly `n` leading digits as a number. -/
def readDigits : Nat → List Char → Option (Nat × List Char)
  | 0, cs => some (0, cs)
  | _ + 1, [] => none
  | n + 1, c :: cs => do
    let d ← digitVal c
    let (rest, cs') ← readDigits n cs
    pure (d * 10 ^ n + rest, cs')

def expectChar (c : Char) : List Char → Option (List Char)
  | [] => none
  | c' :: cs => if c' = c then some cs else none

/-- `YYYY-MM-DD` with calendar validation (Python's `_parse_isoformat_date`). -/
def parseIsoDate (cs : List Char) : Option (Nat × Nat × Nat × List Char) := do
  let (y, cs) ← readDigits 4 cs
  let cs ← expectChar '-' cs
  let (m, cs) ← readDigits 2 cs
  let cs ← expectChar '-' cs
  let (d, cs) ← readDigits 2 cs
  if 1 ≤ y ∧ 1 ≤ m ∧ m ≤ 12 ∧ 1 ≤ d ∧ d ≤ daysInMonth y m then
    pure (y, m, d, cs)
  else none

/-- `HH:MM[:SS[.fff|.ffffff]]` (Python's `_parse_isoformat_time`, offsets
not modelled). -/
def parseIsoTime (cs : List Char) : Option (Nat × Nat × Nat × Nat) := do
  let (h, cs) ← readDigits 2 cs
  let cs ← expectChar ':' cs
  let (mi, cs) ← readDigits 2 cs
  let (s, us, cs) ←
    match cs with
    | [] => some (0, 0, ([] : List Char))
    | ':' :: cs => do
      let (s, cs) ← readDigits 2 cs
      match cs with
      | [] => some (s, 0, ([] : List Char))
      | '.' :: cs =>
        match readDigits 6 cs with
        | some (us, cs) => some (s, us, cs)
        | none => do
          let (ms, cs) ← readDigits 3 cs
          pure (s, ms * 1000, cs)
      | _ => none
    | _ => none
  if cs = [] ∧ h ≤ 23 ∧ mi ≤ 59 ∧ s ≤ 59 then pure (h, mi, s, us) else none

/-- `datetime.fromisoformat`: a 10-character date alone, or a date, one
separator character (CPython skips index 10 without inspecting it), and a
time part. -/
def fromisoformat (str : String) : Option PyDateTime := do
  let cs := str.toList
  let (y, m, d, rest) ← parseIsoDate cs
  match rest with
  | [] => pure ⟨y, m, d, 0, 0, 0, 0⟩
  | _ :: timecs => do
    let (h, mi, s, us) ← parseIsoTime timecs
    pure ⟨y, m, d, h, mi, s, us⟩

/-- Left-pad a number with zeros to width `w`. -/
def padNum (w n : Nat) : String :=
  let s := toString n
  String.mk (List.replicate (w - s.length) '0') ++ s

/-- `datetime.isoformat()`: `YYYY-MM-DDTHH:MM:SS`, plus `.ffffff` only
when the microsecond field is nonzero. -/
def isoformat (dt : PyDateTime) : String :=
  padNum 4 dt.year ++ "-" ++ padNum 2 dt.month ++ "-" ++ padNum 2 dt.day ++
    "T" ++ padNum 2 dt.hour ++ ":" ++ padNum 2 dt.minute ++ ":" ++ padNum 2 dt.second ++
    (if dt.micro = 0 then "" else "." ++ padNum 6 dt.micro)

/-- `datetime.strptime(period, "%Y-%m")`: four year digits, `-`, then a
month matching `1[0-2]|0[1-9]|[1-9]` with no trailing characters
("unconverted data remains" otherwise), year at least `MINYEAR = 1`. -/
def parsePeriodYM (period : String) : Option (Nat × Nat) :=
  match period.toList with
  | [y1, y2, y3, y4, '-', m1] => do
    let a ← digitVal y1; let b ← digitVal y2; let c ← digitVal y3; let d ← digitVal y4
    let m ← digitVal m1
    let y := a * 1000 + b * 100 + c * 10 + d
    if 1 ≤ y ∧ 1 ≤ m then pure (y, m) else none
  | [y1, y2, y3, y4, '-', m1, m2] => do
    let a ← digitVal y1; let b ← digitVal y2; let c ← digitVal y3; let d ← digitVal y4
    let hi ← digitVal m1; let lo ← digitVal m2
    let y := a * 1000 + b * 100 + c * 10 + d
    let m := hi * 10 + lo
    if 1 ≤ y ∧ ((hi = 1 ∧ lo ≤ 2) ∨ (hi = 0 ∧ 1 ≤ lo)) then pure (y, m) else none
  | _ => none

/-- Period bounds computed by `generate_invoices` lines 232-241: start of
the month and start of the following month (December rolls the year), as
`isoformat` strings. -/
def periodBounds (period : String) : Option (String × String) :=
  (parsePeriodYM period).map fun (y, m) =>
    (isoformat ⟨y, m, 1, 0, 0, 0, 0⟩,
     if m = 12 then isoformat ⟨y + 1, 1, 1, 0, 0, 0, 0⟩
     else isoformat ⟨y, m + 1, 1, 0, 0, 0, 0⟩)

/-! ## Model of JSON values and Python `float(...)` coercion -/

/-- The JSON values a `quantity` field can hold.  Array and object
payloads are irrelevant to `float(...)`, so they are collapsed. -/
inductive Json where
  | num (q : ℚ)
  | str (s : String)
  | bool (b : Bool)
  | null
  | arr
  | obj
deriving DecidableEq, Repr

def takeDigitsF : List Char → List Nat × List Char
  | [] => ([], [])
  | c :: rest =>
    if c.isDigit then
      let (ds, r) := takeDigitsF rest
      ((c.toNat - 48) :: ds, r)
    else ([], c :: rest)

def digitsVal (ds : List Nat) : Nat := ds.foldl (fun a d => a * 10 + d) 0

/-- Model of Python `float(s)` on strings: optional sign, digits with an
optional fractional part, optional exponent.  (`inf`/`nan`/underscores/
surrounding whitespace are outside the model; the repository never feeds
them in.) -/
def parseFloat (str : String) : Option ℚ :=
  let cs := str.toList
  let (sgn, cs1) : ℚ × List Char :=
    match cs with
    | '+' :: r => (1, r)
    | '-' :: r => (-1, r)
    | r => (1, r)
  let (ip, cs2) := takeDigitsF cs1
  let (fp, cs3) :=
    match cs2 with
    | '.' :: r => takeDigitsF r
    | r => ([], r)
  if ip.isEmpty ∧ fp.isEmpty then none
  else
    let mant : ℚ := (digitsVal ip : ℚ) + (digitsVal fp : ℚ) / (10 : ℚ) ^ fp.length
    match cs3 with
    | [] => some (sgn * mant)
    | 'e' :: r | 'E' :: r =>
      let (eneg, r1) : Bool × List Char :=
        match r with
        | '+' :: r2 => (false, r2)
        | '-' :: r2 => (true, r2)
        | r2 => (false, r2)
      let (ed, r2) := takeDigitsF r1
      if ed.isEmpty ∨ ¬r2.isEmpty then none
      else some (sgn * (if eneg then mant / (10 : ℚ) ^ digitsVal ed
                        else mant * (10 : ℚ) ^ digitsVal ed))
    | _ => none

/-- Python `float(v)` on a JSON value: numbers pass through, `True/False`
are `1.0/0.0` (`bool` is an `int` subclass), strings are parsed or raise
`ValueError`, and `None`/arrays/objects raise `TypeError`. -/
def pyFloat : Json → Except PyErr ℚ
  | .num q => .ok q
  | .str s =>
    match parseFloat s with
    | some q => .ok q
    | none => .error .valueError
  | .bool b => .ok (if b then 1 else 0)
  | .null => .error .typeError
  | .arr => .error .typeError
  | .obj => .error .typeError

/-! ## Data model: rows and the database -/

structure Customer where
  id : Nat
  name : String
  email : String
  timezone : String
deriving DecidableEq, Repr

structure Event where
  customer_id : Nat
  feature : String
  quantity : ℚ
  ts_event : String
  ts_ingested : String
deriving DecidableEq, Repr

structure Invoice where
  id : Nat
  customer_id : Nat
  period_start : String
  period_end : String
  total : ℚ
  generated_at : String
deriving DecidableEq, Repr

structure LineItem where
  invoice_id : Nat
  feature : String
  quantity : ℚ
  unit_price : ℚ
  amount : ℚ
deriving DecidableEq, Repr

structure DB where
  customers : List Customer
  events : List Event
  invoices : List Invoice
  line_items : List LineItem
  next_customer_id : Nat
  next_invoice_id : Nat
deriving DecidableEq, Repr

def initDB : DB := ⟨[], [], [], [], 1, 1⟩

/-- One event object of a `POST /v1/events/batch` body; each field may be
absent. -/
structure EventInput where
  customer_id : Option Nat
  feature : Option String
  quantity : Option Json
  ts_event : Option String
deriving DecidableEq, Repr

/-! ## `create_customer` (server.py lines 115-128) -/

/-- `INSERT INTO customers ...` with the `email UNIQUE` constraint; the
new id is SQLite's `lastrowid`. -/
def create_customer (db : DB) (name email timezone : String) :
    DB × Except PyErr Customer :=
  if db.customers.any (fun c => c.email == email) then
    (db, .error .integrityError)
  else
    let c : Customer := ⟨db.next_customer_id, name, email, timezone⟩
    ({ db with
        customers := db.customers ++ [c]
        next_customer_id := db.next_customer_id + 1 },
     .ok c)

/-! ## `insert_events` (server.py lines 131-154) -/

/-- All work done for one event of the batch, in source order: the
required-field check (`ValueError`), `float(event.get("quantity", 1.0))`,
`datetime.fromisoformat(event["ts_event"]).isoformat()` (`ValueError` on
parse failure), and the `events.customer_id` foreign-key check performed
by the `INSERT` under `PRAGMA foreign_keys=ON` (`IntegrityError`). -/
def procEvent (db : DB) (now : String) (ev : EventInput) : Except PyErr Event :=
  match ev.customer_id, ev.feature, ev.ts_event with
  | some cid, some feat, some ts =>
    match pyFloat (ev.quantity.getD (Json.num 1)) with
    | .error e => .error e
    | .ok q =>
      match fromisoformat ts with
      | none => .error .valueError
      | some dt =>
        if db.customers.any (fun c => c.id == cid) then
          .ok ⟨cid, feat, q, isoformat dt, now⟩
        else .error .integrityError
  | _, _, _ => .error .valueError

/-- Sequential processing of a batch, stopping at the first failure. -/
def mapE (f : α → Except PyErr β) : List α → Except PyErr (List β)
  | [] => .ok []
  | a :: l =>
    match f a with
    | .error e => .error e
    | .ok b =>
      match mapE f l with
      | .error e => .error e
      | .ok bs => .ok (b :: bs)

/-- `insert_events`: the loop validates and inserts each event and only
then commits; on any exception the connection is closed without a commit,
so SQLite rolls the whole batch back.  Hence the net effect is: all
events appended on success, the store unchanged on failure. -/
def insert_events (db : DB) (now : String) (batch : List EventInput) :
    DB × Except PyErr Nat :=
  match mapE (procEvent db now) batch with
  | .error e => (db, .error e)
  | .ok evs => ({ db with events := db.events ++ evs }, .ok evs.length)

/-! ## SQLite TEXT comparison

SQLite compares TEXT values with `memcmp` on their UTF-8 bytes; on the
ASCII timestamp strings of this schema that is lexicographic comparison
of the character codes. -/

def strLtL : List Char → List Char → Bool
  | [], [] => false
  | [], _ :: _ => true
  | _ :: _, [] => false
  | a :: as, b :: bs =>
    if a.toNat < b.toNat then true
    else if b.toNat < a.toNat then false
    else strLtL as bs

def strLt (a b : String) : Bool := strLtL a.toList b.toList

def strLe (a b : String) : Bool := !strLt b a

/-! ## `get_usage` (server.py lines 157-175) -/

/-- The `WHERE customer_id = ? AND ts_event >= ? AND ts_event < ?` row
set, by SQLite TEXT comparison. -/
def windowEvents (db : DB) (cid : Nat) (a b : String) : List Event :=
  db.events.filter fun e =>
    e.customer_id == cid && strLe a e.ts_event && strLt e.ts_event b

/-- `GROUP BY feature` with `SUM(quantity)`: one row per distinct feature
of the selected events.  (SQLite fixes no output order without
`ORDER BY`; the model uses one definite order of the distinct keys.) -/
def groupRows (es : List Event) : List (String × ℚ) :=
  ((es.map (·.feature)).dedup).map fun f =>
    (f, ((es.filter (fun e => e.feature == f)).map (·.quantity)).sum)

def get_usage (db : DB) (cid : Nat) (a b : String) : List (String × ℚ) :=
  groupRows (windowEvents db cid a b)

/-- Look a feature up in an aggregation result (`none` when the feature
has no row). -/
def usageLookup (rows : List (String × ℚ)) (f : String) : Option ℚ :=
  (rows.find? (fun r => r.1 == f)).map (·.2)

/-! ## `list_invoices` (server.py lines 178-213) -/

/-- Each invoice of the customer with its line items.  (The source orders
by `generated_at DESC`; no property below depends on the order, and the
model keeps insertion order.) -/
def list_invoices (db : DB) (cid : Nat) : List (Invoice × List LineItem) :=
  (db.invoices.filter (fun i => i.customer_id == cid)).map fun i =>
    (i, db.line_items.filter (fun li => li.invoice_id == i.id))

/-! ## `generate_invoices` (server.py lines 216-291) -/

/-- Lines 266-287: `INSERT INTO invoices ... total = 0.0`, one
`INSERT INTO invoice_line_items` per usage row with
`amount = quantity * unit_price`, the running `total += amount`, and the
closing `UPDATE invoices SET total = ?`.  The fresh invoice id is
SQLite's `lastrowid`. -/
def insertInvoice (now ps pe : String) (unit_price : ℚ) (db1 : DB) (cid : Nat)
    (usage : List (String × ℚ)) : DB :=
  let iid := db1.next_invoice_id
  let inv : Invoice := ⟨iid, cid, ps, pe, 0, now⟩
  let items := usage.map fun u => LineItem.mk iid u.1 u.2 unit_price (u.2 * unit_price)
  let total := (items.map (·.amount)).sum
  { db1 with
      invoices :=
        (db1.invoices ++ [inv]).map
          (fun i => if i.id == iid then { i with total := total } else i)
      line_items := db1.line_items ++ items
      next_invoice_id := iid + 1 }

/-- The body of the per-customer loop (lines 255-288).  In source order:
compute usage with a fresh connection; skip if empty; `DELETE FROM
invoices WHERE customer_id = ? AND period_start = ?` — under
`PRAGMA foreign_keys=ON` this statement fails with `IntegrityError` when
any row it would delete is still referenced from `invoice_line_items`
(the schema has no `ON DELETE CASCADE`); `conn.commit()` (line 265)
commits the bare delete; then `insertInvoice` (whose `INSERT INTO
invoices` checks the `customers` foreign key) and the per-customer
`conn.commit()` (line 287).  Returns the committed state plus either
`created?` or the exception. -/
def stepCustomer (now ps pe : String) (unit_price : ℚ) (db : DB) (cid : Nat) :
    DB × Except PyErr Bool :=
  let usage := get_usage db cid ps pe
  if usage.isEmpty then (db, .ok false)
  else
    let isMatch : Invoice → Bool := fun i => i.customer_id == cid && i.period_start == ps
    if (db.invoices.filter isMatch).any
        (fun i => db.line_items.any (fun li => li.invoice_id == i.id)) then
      (db, .error .integrityError)
    else
      let db1 := { db with invoices := db.invoices.filter (fun i => !isMatch i) }
      if db1.customers.any (fun c => c.id == cid) then
        (insertInvoice now ps pe unit_price db1 cid usage, .ok true)
      else (db1, .error .integrityError)

/-- The loop over the eligible customers; an exception aborts the loop,
keeping everything committed so far. -/
def runCustomers (now ps pe : String) (unit_price : ℚ) :
    List Nat → DB → Nat → DB × Except PyErr Nat
  | [], db, n => (db, .ok n)
  | cid :: rest, db, n =>
    match stepCustomer now ps pe unit_price db cid with
    | (db', .ok created) =>
      runCustomers now ps pe unit_price rest db' (if created then n + 1 else n)
    | (db', .error e) => (db', .error e)

/-- `SELECT DISTINCT customer_id FROM events WHERE ts_event >= ? AND
ts_event < ?` (lines 247-251).  SQLite fixes no row order without
`ORDER BY`; the model keeps first-appearance order. -/
def eligibleCustomers (db : DB) (ps pe : String) : List Nat :=
  ((db.events.filter fun e =>
      strLe ps e.ts_event && strLt e.ts_event pe).map
    (·.customer_id)).dedup

/-- `generate_invoices(period, unit_price)`: parse the period (raises
`ValueError` on failure — the unit price is never validated), select
`DISTINCT customer_id` among the period's events, and run the
per-customer loop. -/
def generate_invoices (db : DB) (now period : String) (unit_price : ℚ) :
    DB × Except PyErr Nat :=
  match periodBounds period with
  | none => (db, .error .valueError)
  | some (ps, pe) =>
    runCustomers now ps pe unit_price (eligibleCustomers db ps pe) db 0

/-! ## The core operations as a transition system (for reachability) -/

/-- One call into the core API.  The two read-only operations do not
change the store. -/
inductive Op where
  | createCust (name email timezone : String)
  | ingest (now : String) (batch : List EventInput)
  | run (now period : String) (unit_price : ℚ)
  | readUsage (cid : Nat) (a b : String)
  | readInvoices (cid : Nat)

def applyOp (db : DB) : Op → DB
  | .createCust n e t => (create_customer db n e t).1
  | .ingest now b => (insert_events db now b).1
  | .run now p pr => (generate_invoices db now p pr).1
  | .readUsage _ _ _ => db
  | .readInvoices _ => db

def execOps (ops : List Op) : DB := ops.foldl applyOp initDB

/-! ## Concrete scenarios

`dbA*`: one customer, one January-2024 event, invoiced once — the state
on which re-running the invoice generator is exercised.
`dbB*`: the worked example of the specification (§8). -/

def dbA0 : DB := (create_customer initDB "Acme" "acme@example.com" "UTC").1

def evBatchA : List EventInput :=
  [⟨some 1, some "api_calls", some (Json.num 2), some "2024-01-10T00:00:00"⟩]

def dbA1 : DB := (insert_events dbA0 "2024-01-15T00:00:00" evBatchA).1

def dbA2 : DB := (generate_invoices dbA1 "2024-01-31T09:00:00" "2024-01" (1/100)).1

def dbB0 : DB := (create_customer initDB "C" "c@example.com" "UTC").1

def evBatchB : List EventInput :=
  [⟨some 1, some "api_calls", some (Json.num 10), some "2024-01-05"⟩,
   ⟨some 1, some "api_calls", some (Json.num 5), some "2024-01-20"⟩,
   ⟨some 1, some "storage", some (Json.num 1), some "2024-01-28"⟩]

def dbB1 : DB := (insert_events dbB0 "2024-02-01T00:00:00" evBatchB).1

/-! ## Helper predicates, invariant counters and witness data -/

/-- Did an embedded operation succeed? -/
def exOk : Except PyErr β → Bool
  | .ok _ => true
  | .error _ => false

/-- The event lacks one of the three required fields. -/
def requiredMissing (ev : EventInput) : Bool :=
  ev.customer_id.isNone || ev.feature.isNone || ev.ts_event.isNone

/-- The event's `ts_event` is present but `fromisoformat` rejects it. -/
def tsUnparseable (ev : EventInput) : Bool :=
  match ev.ts_event with
  | some ts => (fromisoformat ts).isNone
  | none => false

/-- The event's quantity field (defaulted to `1.0`) coerces via
`float(...)`. -/
def qtyCoerces (ev : EventInput) : Bool :=
  exOk (pyFloat (ev.quantity.getD (Json.num 1)))

def batchW3pre : List EventInput :=
  [⟨some 1, some "api_calls", some (Json.num 1), some "2024-01-02T00:00:00"⟩,
   ⟨some 1, some "api_calls", some (Json.num 2), some "2024-01-03T00:00:00"⟩]

def evW3 : EventInput := ⟨some 1, none, some (Json.num 3), some "2024-01-04T00:00:00"⟩

def batchW3rest : List EventInput :=
  [⟨some 1, some "storage", some (Json.num 4), some "2024-01-05T00:00:00"⟩,
   ⟨some 1, some "storage", some (Json.num 5), some "2024-01-06T00:00:00"⟩]

def evA : Event := ⟨1, "api_calls", 2, "2024-01-10T00:00:00", "2024-01-15T00:00:00"⟩

/-- Number of invoices of the store for one (customer, period start)
pair. -/
def pairCount (db : DB) (cid : Nat) (ps : String) : Nat :=
  db.invoices.countP fun i => i.customer_id == cid && i.period_start == ps

def batchW7 : List EventInput :=
  [⟨some 1, some "api_calls", some (Json.num 3), some "2024-03-02T00:00:00"⟩,
   ⟨some 1, some "api_calls", none, some "2024-03-05T10:00:00"⟩,
   ⟨some 1, some "storage", some (Json.str "2.5"), some "2024-03-07"⟩]

def evsW7 : List Event :=
  [⟨1, "api_calls", 3, "2024-03-02T00:00:00", "2024-03-08T00:00:00"⟩,
   ⟨1, "api_calls", 1, "2024-03-05T10:00:00", "2024-03-08T00:00:00"⟩,
   ⟨1, "storage", 5/2, "2024-03-07T00:00:00", "2024-03-08T00:00:00"⟩]

/-- The committed state after one successful zero-price customer step. -/
def zeroStepDB (now ps pe : String) (db : DB) (cid : Nat) : DB :=
  ⟨db.customers, db.events,
   db.invoices ++ [⟨db.next_invoice_id, cid, ps, pe, 0, now⟩],
   db.line_items ++ (get_usage db cid ps pe).map
     (fun u => ⟨db.next_invoice_id, u.1, u.2, 0, 0⟩),
   db.next_customer_id, db.next_invoice_id + 1⟩

/-! ## Claims about the generator on concrete states -/

/-- C1: calling `RunInvoices(period, price)` twice in succession with no
intervening ingestion does NOT succeed both times.  The first run
succeeds (one invoice).  The second run's `DELETE FROM invoices` hits the
`invoice_line_items.invoice_id` foreign key (no `ON DELETE CASCADE`, and
`PRAGMA foreign_keys=ON` is set), so it raises `sqlite3.IntegrityError`
and leaves the store unchanged instead of reproducing the invoice. -/
theorem C1_second_run_raises :
    (generate_invoices dbA1 "2024-01-31T09:00:00" "2024-01" (1/100)).2 = .ok 1 ∧
    generate_invoices dbA2 "2024-01-31T10:00:00" "2024-01" (1/100) =
      (dbA2, .error .integrityError) := by decide

/-- C2: the supersede step never deletes the prior invoice's line items:
on a state holding an invoice (id 1) with one line item for the period,
re-generation fails with `IntegrityError` because the bare
`DELETE FROM invoices` violates the un-cascaded line-item foreign key,
and the old invoice and its line items survive untouched. -/
theorem C2_supersede_not_atomic :
    (list_invoices dbA2 1).map (fun p => (p.1.id, p.2.length)) = [(1, 1)] ∧
    (generate_invoices dbA2 "2024-02-01T00:00:00" "2024-01" (1/100)).1.line_items
      = dbA2.line_items ∧
    (generate_invoices dbA2 "2024-02-01T00:00:00" "2024-01" (1/100)).2
      = .error .integrityError := by decide

/-- C5: the specification's worked example, with Python floats embedded
as exact rationals: three events (api_calls 10, api_calls 5, storage 1)
in January 2024 and `RunInvoices("2024-01", 0.01)` produce exactly one
invoice, total `0.16`, line items `(api_calls, 15, 0.01, 0.15)` and
`(storage, 1, 0.01, 0.01)`. -/
theorem C5_invoice_example :
    (generate_invoices dbB1 "2024-02-01T08:00:00" "2024-01" (1/100)).2 = .ok 1 ∧
    (generate_invoices dbB1 "2024-02-01T08:00:00" "2024-01" (1/100)).1.invoices =
      [⟨1, 1, "2024-01-01T00:00:00", "2024-02-01T00:00:00", 16/100,
        "2024-02-01T08:00:00"⟩] ∧
    (generate_invoices dbB1 "2024-02-01T08:00:00" "2024-01" (1/100)).1.line_items =
      [⟨1, "api_calls", 15, 1/100, 15/100⟩, ⟨1, "storage", 1, 1/100, 1/100⟩] := by decide

/-- C6 counterexample: a negative `unit_price` does not raise
`ValidationError` — `generate_invoices` never validates the price; with a
well-formed period and `unit_price = -1` the run succeeds and bills a
negative total. -/
theorem C6_counterexample :
    ((-1 : ℚ) < 0) ∧
    (generate_invoices dbA1 "2024-01-31T09:00:00" "2024-01" (-1)).2 = .ok 1 ∧
    ((generate_invoices dbA1 "2024-01-31T09:00:00" "2024-01" (-1)).1.invoices.map
      (·.total)) = [-2] := by decide

/-- C3 counterexample: a batch containing an event that is missing
`feature` still inserts zero events, but the reported error class is
`TypeError` (HTTP 500), not `ValueError`/`ValidationError` (HTTP 400),
because an earlier event of the same batch carries a `null` quantity and
`float(None)` raises first. -/
theorem C3_counterexample :
    (([⟨some 1, some "f", some Json.null, some "2024-01-02T00:00:00"⟩,
       ⟨some 1, none, some (Json.num 1), some "2024-01-03T00:00:00"⟩] :
        List EventInput).map (·.feature)) = [some "f", none] ∧
    insert_events dbA0 "2024-01-05T00:00:00"
      [⟨some 1, some "f", some Json.null, some "2024-01-02T00:00:00"⟩,
       ⟨some 1, none, some (Json.num 1), some "2024-01-03T00:00:00"⟩]
      = (dbA0, .error .typeError) ∧
    statusOf (.error .typeError) = 500 ∧ statusOf (.error .valueError) = 400 := by decide

/-- C9 counterexample: a present but non-coercible `quantity` of class
`NoneType` makes `float(...)` raise `TypeError`, which the transport maps
to HTTP 500 — not the claimed `ValidationError` (ValueError → 400) —
though still nothing is inserted. -/
theorem C9_counterexample :
    insert_events dbA0 "2024-01-05T00:00:00"
      [⟨some 1, some "f", some Json.null, some "2024-01-02T00:00:00"⟩]
      = (dbA0, .error .typeError) ∧
    PyErr.typeError ≠ PyErr.valueError ∧
    statusOf (.error .typeError) = 500 := by decide

/-! ## Validation helpers and lemmas about batch processing -/

theorem mapE_error_after_ok (f : α → Except PyErr β) (pre : List α) (a : α)
    (rest : List α) (er : PyErr) (hpre : ∀ e ∈ pre, exOk (f e) = true)
    (ha : f a = .error er) : mapE f (pre ++ a :: rest) = .error er := by
  induction pre with
  | nil => simp [mapE, ha]
  | cons p ps ih =>
    have hp := hpre p (List.mem_cons_self _ _)
    rw [List.cons_append]
    unfold mapE
    cases hfp : f p with
    | error e => rw [hfp] at hp; simp [exOk] at hp
    | ok b =>
      rw [ih fun e he => hpre e (List.mem_cons_of_mem _ he)]

theorem mapE_ok_length (f : α → Except PyErr β) (l : List α) (bs : List β)
    (h : mapE f l = .ok bs) : bs.length = l.length := by
  induction l generalizing bs with
  | nil => unfold mapE at h; cases h; rfl
  | cons a l ih =>
    unfold mapE at h
    cases hfa : f a with
    | error e => rw [hfa] at h; cases h
    | ok b =>
      rw [hfa] at h
      cases hml : mapE f l with
      | error e => rw [hml] at h; cases h
      | ok bs' =>
        rw [hml] at h
        cases h
        simp [ih bs' hml]

theorem procEvent_valueError_of_bad (db : DB) (now : String) (ev : EventInput)
    (hbad : requiredMissing ev = true ∨ (qtyCoerces ev = true ∧ tsUnparseable ev = true)) :
    procEvent db now ev = .error .valueError := by
  obtain ⟨ocid, ofeat, oq, ots⟩ := ev
  cases ocid with
  | none => rfl
  | some cid =>
  cases ofeat with
  | none => rfl
  | some feat =>
  cases ots with
  | none => rfl
  | some ts =>
  rcases hbad with h | ⟨h1, h2⟩
  · simp [requiredMissing] at h
  · simp only [tsUnparseable, Option.isNone_iff_eq_none] at h2
    cases hq : pyFloat (oq.getD (Json.num 1)) with
    | error e => simp [qtyCoerces, hq, exOk] at h1
    | ok q => simp [procEvent, hq, h2]

/-- C3 (amended): a batch whose first defective event is missing a
required field — or has a coercible quantity but an unparseable
timestamp — makes `insert_events` fail with `ValueError` (the spec's
`ValidationError`, HTTP 400) and leave the event store completely
unchanged, no matter how many valid events precede or follow it.  (The
amendment: when an *earlier* event of the batch fails with a
non-`ValueError` failure — a `null`/array/object quantity (`TypeError`)
or an unknown customer (`IntegrityError`) — the batch still inserts
nothing but the reported class is not `ValidationError`; see the
counterexample.) -/
theorem C3_batch_all_or_nothing (db : DB) (now : String) (pre : List EventInput)
    (ev : EventInput) (rest : List EventInput)
    (hpre : ∀ e ∈ pre, exOk (procEvent db now e) = true)
    (hbad : requiredMissing ev = true ∨ (qtyCoerces ev = true ∧ tsUnparseable ev = true)) :
    insert_events db now (pre ++ ev :: rest) = (db, .error .valueError) := by
  unfold insert_events
  rw [mapE_error_after_ok (procEvent db now) pre ev rest .valueError hpre
    (procEvent_valueError_of_bad db now ev hbad)]

/-- C3 witness: the spec's own instance — a batch of 5 events whose 3rd
lacks `feature` inserts 0 events and reports `ValidationError`. -/
theorem C3_witness :
    (∀ e ∈ batchW3pre, exOk (procEvent dbA0 "2024-01-07T00:00:00" e) = true) ∧
    requiredMissing evW3 = true ∧
    (batchW3pre ++ evW3 :: batchW3rest).length = 5 ∧
    insert_events dbA0 "2024-01-07T00:00:00" (batchW3pre ++ evW3 :: batchW3rest) =
      (dbA0, .error .valueError) := by
  refine ⟨by decide, by decide, by decide, ?_⟩
  exact C3_batch_all_or_nothing dbA0 "2024-01-07T00:00:00" batchW3pre evW3 batchW3rest
    (by decide) (Or.inl (by decide))

/-- C9 (amended): a present `quantity` that is a non-numeric string
fails the batch with `ValueError` (HTTP 400, the spec's
`ValidationError`); but a present `quantity` of class `NoneType`, array
or object raises `TypeError`, which the transport surfaces as HTTP 500,
not as a `ValidationError` — in both cases nothing is inserted; and any
quantity that `float(...)` does coerce is accepted as the event's stored
quantity. -/
theorem C9_quantity_coercion (db : DB) (now : String) (pre : List EventInput)
    (ev : EventInput) (rest : List EventInput) (v : Json)
    (hpre : ∀ e ∈ pre, exOk (procEvent db now e) = true)
    (hfields : requiredMissing ev = false)
    (hq : ev.quantity = some v) :
    ((∃ s, v = .str s ∧ parseFloat s = none) →
      insert_events db now (pre ++ ev :: rest) = (db, .error .valueError) ∧
      statusOf (insert_events db now (pre ++ ev :: rest)).2 = 400) ∧
    ((v = .null ∨ v = .arr ∨ v = .obj) →
      insert_events db now (pre ++ ev :: rest) = (db, .error .typeError) ∧
      statusOf (insert_events db now (pre ++ ev :: rest)).2 = 500) ∧
    (∀ q x, pyFloat v = .ok q → procEvent db now ev = .ok x → x.quantity = q) := by
  obtain ⟨ocid, ofeat, oq, ots⟩ := ev
  cases ocid <;> cases ofeat <;> cases ots <;>
    simp [requiredMissing] at hfields
  rename_i cid feat ts
  simp only [] at hq
  subst hq
  have hproc : ∀ er, pyFloat v = .error er →
      procEvent db now ⟨some cid, some feat, some v, some ts⟩ = .error er := by
    intro er her
    simp [procEvent, her]
  refine ⟨?_, ?_, ?_⟩
  · rintro ⟨s, rfl, hs⟩
    have hv : pyFloat (Json.str s) = .error .valueError := by simp [pyFloat, hs]
    have h := mapE_error_after_ok (procEvent db now) pre _ rest .valueError hpre
      (hproc _ hv)
    have h2 : insert_events db now
        (pre ++ (⟨some cid, some feat, some (Json.str s), some ts⟩ : EventInput) :: rest) =
        (db, .error .valueError) := by
      unfold insert_events; rw [h]
    exact ⟨h2, by rw [h2]; rfl⟩
  · rintro (rfl | rfl | rfl) <;>
    · have h := mapE_error_after_ok (procEvent db now) pre _ rest .typeError hpre
        (hproc _ (by simp [pyFloat]))
      refine ⟨?_, ?_⟩
      · unfold insert_events; rw [h]
      · unfold insert_events; rw [h]; rfl
  · intro q x hv hx
    simp only [procEvent, Option.getD_some, hv] at hx
    cases hts : fromisoformat ts with
    | none => rw [hts] at hx; cases hx
    | some dt =>
      rw [hts] at hx
      by_cases hc : db.customers.any (fun c => c.id == cid) = true
      · simp [hc] at hx
        cases hx
        rfl
      · simp [hc] at hx

/-- C9 witness: a non-numeric string quantity is rejected as
`ValidationError` with nothing inserted. -/
theorem C9_witness :
    parseFloat "abc" = none ∧
    (insert_events dbA0 "2024-01-07T00:00:00"
        [⟨some 1, some "f", some (Json.str "abc"), some "2024-01-02T00:00:00"⟩] =
      (dbA0, .error .valueError) ∧
     statusOf (insert_events dbA0 "2024-01-07T00:00:00"
        [⟨some 1, some "f", some (Json.str "abc"), some "2024-01-02T00:00:00"⟩]).2 = 400) := by
  refine ⟨by decide, ?_⟩
  exact (C9_quantity_coercion dbA0 "2024-01-07T00:00:00" []
    ⟨some 1, some "f", some (Json.str "abc"), some "2024-01-02T00:00:00"⟩ []
    (Json.str "abc") (by decide) (by decide) rfl).1 ⟨"abc", rfl, by decide⟩

/-! ## Lemmas about the SQLite comparator and aggregation -/

theorem strLtL_self (cs : List Char) : strLtL cs cs = false := by
  induction cs with
  | nil => rfl
  | cons c cs ih => simp [strLtL, ih]

theorem strLt_self (s : String) : strLt s s = false := strLtL_self _

theorem strLe_self (s : String) : strLe s s = true := by
  simp [strLe, strLt_self]

theorem find?_beq_self (l : List String) (f : String) :
    (l.find? fun g => g == f) = if f ∈ l then some f else none := by
  induction l with
  | nil => rfl
  | cons a l ih =>
    by_cases h : a = f
    · subst h; simp [List.find?_cons]
    · simp [List.find?_cons, h, ih, List.mem_cons, Ne.symm h]

theorem usageLookup_groupRows (es : List Event) (f : String) :
    usageLookup (groupRows es) f =
      if es.any (fun e => e.feature == f) then
        some (((es.filter fun e => e.feature == f).map (·.quantity)).sum)
      else none := by
  unfold usageLookup groupRows
  rw [List.find?_map]
  have hcomp : ((fun r : String × ℚ => r.1 == f) ∘
      fun g => (g, ((es.filter fun e => e.feature == g).map (·.quantity)).sum)) =
      fun g => g == f := rfl
  rw [hcomp, find?_beq_self]
  by_cases hf : f ∈ (es.map (·.feature)).dedup
  · have hany : es.any (fun e => e.feature == f) = true := by
      rw [List.mem_dedup] at hf
      obtain ⟨e, he, hfe⟩ := List.mem_map.mp hf
      exact List.any_eq_true.mpr ⟨e, he, by simp [hfe]⟩
    simp [hf, hany]
  · have hany : ¬es.any (fun e => e.feature == f) = true := by
      intro h
      obtain ⟨e, he, hfe⟩ := List.any_eq_true.mp h
      exact hf (List.mem_dedup.mpr (List.mem_map.mpr ⟨e, he, by simpa using hfe⟩))
    simp [hf, hany]

/-- C4: aggregation is half-open.  (1) the reported quantity for a
feature is exactly the sum over the window's rows; (2) the window
contains exactly the customer's events with
`interval_start <= ts_event < interval_end` under SQLite's string
comparison; (3) an event whose timestamp equals `interval_end` is
excluded from that window; (4) the same event is included when that
timestamp is the `interval_start` of the adjacent next call. -/
theorem C4_half_open_interval :
    (∀ (db : DB) (cid : Nat) (a b f : String),
      usageLookup (get_usage db cid a b) f =
        if (windowEvents db cid a b).any (fun e => e.feature == f) then
          some ((((windowEvents db cid a b).filter fun e => e.feature == f).map
            (·.quantity)).sum)
        else none) ∧
    (∀ (db : DB) (cid : Nat) (a b : String) (e : Event),
      e ∈ windowEvents db cid a b ↔
        e ∈ db.events ∧ e.customer_id = cid ∧ strLe a e.ts_event = true ∧
          strLt e.ts_event b = true) ∧
    (∀ (db : DB) (cid : Nat) (a b : String) (e : Event), e.ts_event = b →
      e ∉ windowEvents db cid a b) ∧
    (∀ (db : DB) (cid : Nat) (b c : String) (e : Event),
      e ∈ db.events → e.customer_id = cid → e.ts_event = b → strLt b c = true →
      e ∈ windowEvents db cid b c) := by
  refine ⟨fun db cid a b f => usageLookup_groupRows _ f, ?_, ?_, ?_⟩
  · intro db cid a b e
    simp [windowEvents, List.mem_filter, Bool.and_eq_true, beq_iff_eq, and_assoc]
  · intro db cid a b e hts hmem
    simp only [windowEvents, List.mem_filter, Bool.and_eq_true] at hmem
    have := hmem.2.2
    rw [hts, strLt_self] at this
    cases this
  · intro db cid b c e he hcid hts hlt
    simp only [windowEvents, List.mem_filter, Bool.and_eq_true]
    exact ⟨he, ⟨by simp [hcid], by rw [hts]; exact strLe_self b⟩, by rw [hts]; exact hlt⟩

/-- C4 witness: the stored event at `2024-01-10T00:00:00` is excluded
from the window ending at that instant and included in the adjacent
window starting there. -/
theorem C4_witness :
    evA ∈ dbA1.events ∧
    evA ∉ windowEvents dbA1 1 "2024-01-01T00:00:00" "2024-01-10T00:00:00" ∧
    evA ∈ windowEvents dbA1 1 "2024-01-10T00:00:00" "2024-02-01T00:00:00" := by
  refine ⟨by decide, ?_, ?_⟩
  · exact C4_half_open_interval.2.2.1 dbA1 1 "2024-01-01T00:00:00"
      "2024-01-10T00:00:00" evA rfl
  · exact C4_half_open_interval.2.2.2 dbA1 1 "2024-01-10T00:00:00"
      "2024-02-01T00:00:00" evA (by decide) rfl rfl (by decide)

/-! ## The invoice generator raises `ValueError` only for the period -/

theorem stepCustomer_result (now ps pe : String) (price : ℚ) (db : DB) (cid : Nat) :
    (stepCustomer now ps pe price db cid).2 = .ok true ∨
    (stepCustomer now ps pe price db cid).2 = .ok false ∨
    (stepCustomer now ps pe price db cid).2 = .error .integrityError := by
  unfold stepCustomer
  dsimp only
  split_ifs <;> simp

theorem runCustomers_no_valueError (now ps pe : String) (price : ℚ)
    (cids : List Nat) (db : DB) (n : Nat) :
    (runCustomers now ps pe price cids db n).2 ≠ .error .valueError := by
  induction cids generalizing db n with
  | nil => simp [runCustomers]
  | cons c rest ih =>
    unfold runCustomers
    rcases hstep : stepCustomer now ps pe price db c with ⟨db', r⟩
    cases r with
    | ok created => exact ih db' _
    | error e =>
      have h := stepCustomer_result now ps pe price db c
      rw [hstep] at h
      rcases h with h | h | h
      · exact absurd h (by simp)
      · exact absurd h (by simp)
      · simp only [] at h
        cases h
        simp

/-- C6 (amended): `generate_invoices` raises `ValueError` (the spec's
`ValidationError`), leaving the store unchanged, exactly when the period
fails to parse under `strptime("%Y-%m")`; the unit price — negative or
not — is never validated and can never cause a `ValueError`. -/
theorem C6_period_validation (db : DB) (now period : String) (price : ℚ) :
    (periodBounds period = none →
      generate_invoices db now period price = (db, .error .valueError)) ∧
    (∀ ps pe, periodBounds period = some (ps, pe) →
      (generate_invoices db now period price).2 ≠ .error .valueError) := by
  constructor
  · intro h
    unfold generate_invoices
    rw [h]
  · intro ps pe h
    unfold generate_invoices
    rw [h]
    exact runCustomers_no_valueError now ps pe price _ db 0

/-- C6 witness: a malformed period raises `ValueError` with the store
untouched, while a well-formed period with a negative price never
does. -/
theorem C6_witness :
    periodBounds "January" = none ∧
    generate_invoices dbA1 "2024-02-01T00:00:00" "January" (-5) =
      (dbA1, .error .valueError) ∧
    periodBounds "2024-01" = some ("2024-01-01T00:00:00", "2024-02-01T00:00:00") ∧
    (generate_invoices dbA1 "2024-02-01T00:00:00" "2024-01" (-5)).2 ≠
      .error .valueError := by
  refine ⟨by decide, ?_, by decide, ?_⟩
  · exact (C6_period_validation dbA1 "2024-02-01T00:00:00" "January" (-5)).1 (by decide)
  · exact (C6_period_validation dbA1 "2024-02-01T00:00:00" "2024-01" (-5)).2
      "2024-01-01T00:00:00" "2024-02-01T00:00:00" (by decide)

/-! ## C8: at most one invoice per (customer id, period start) -/

theorem countP_filter_le (p q : α → Bool) (l : List α) :
    (l.filter q).countP p ≤ l.countP p := by
  rw [List.countP_filter]
  exact List.countP_mono_left fun x _ hx => by
    rw [Bool.and_eq_true] at hx; exact hx.1

theorem pairCount_insertInvoice (now ps pe : String) (price : ℚ) (db1 : DB)
    (c : Nat) (usage : List (String × ℚ)) (cid : Nat) (ps' : String) :
    pairCount (insertInvoice now ps pe price db1 c usage) cid ps' =
      pairCount db1 cid ps' + (if c == cid && ps == ps' then 1 else 0) := by
  unfold insertInvoice pairCount
  dsimp only
  rw [List.countP_map]
  rw [List.countP_congr (q := fun i : Invoice =>
    i.customer_id == cid && i.period_start == ps')]
  · rw [List.countP_append]
    congr 1
    simp [List.countP_cons]
  · intro i _
    by_cases hi : (i.id == db1.next_invoice_id) = true <;>
      simp [Function.comp, hi]

theorem pairCount_stepCustomer (now ps' pe : String) (price : ℚ) (db : DB)
    (c cid : Nat) (ps : String) (h : pairCount db cid ps ≤ 1) :
    pairCount (stepCustomer now ps' pe price db c).1 cid ps ≤ 1 := by
  unfold stepCustomer
  dsimp only
  split_ifs with h1 h2 h3
  · exact h
  · exact h
  · rw [pairCount_insertInvoice]
    by_cases hm : (c == cid && ps' == ps) = true
    · have hzero : pairCount { db with invoices := db.invoices.filter (fun i => !(i.customer_id == c && i.period_start == ps')) } cid ps = 0 := by
        unfold pairCount
        dsimp only
        rw [List.countP_eq_zero]
        intro i hi
        rw [List.mem_filter] at hi
        rw [Bool.and_eq_true, beq_iff_eq, beq_iff_eq] at hm
        intro hp
        rw [Bool.and_eq_true, beq_iff_eq, beq_iff_eq] at hp
        have hmm : (i.customer_id == c && i.period_start == ps') = true := by
          simp [hm.1, hm.2, hp.1, hp.2]
        rw [hmm] at hi
        simp at hi
      rw [hzero, hm]
      simp
    · have hle : pairCount { db with invoices := db.invoices.filter (fun i => !(i.customer_id == c && i.period_start == ps')) } cid ps ≤ 1 :=
        Nat.le_trans (countP_filter_le _ _ db.invoices) h
      rw [Bool.not_eq_true] at hm
      rw [hm]
      simpa using hle
  · exact Nat.le_trans (countP_filter_le _ _ db.invoices) h

theorem pairCount_runCustomers (now ps' pe : String) (price : ℚ)
    (cids : List Nat) (db : DB) (n : Nat) (cid : Nat) (ps : String)
    (h : pairCount db cid ps ≤ 1) :
    pairCount (runCustomers now ps' pe price cids db n).1 cid ps ≤ 1 := by
  induction cids generalizing db n with
  | nil => exact h
  | cons c rest ih =>
    unfold runCustomers
    rcases hstep : stepCustomer now ps' pe price db c with ⟨db', r⟩
    have hdb' : pairCount db' cid ps ≤ 1 := by
      have hh := pairCount_stepCustomer now ps' pe price db c cid ps h
      rw [hstep] at hh
      exact hh
    cases r with
    | ok created => exact ih db' _ hdb'
    | error e => exact hdb'

theorem pairCount_applyOp (db : DB) (op : Op) (cid : Nat) (ps : String)
    (h : pairCount db cid ps ≤ 1) : pairCount (applyOp db op) cid ps ≤ 1 := by
  cases op with
  | createCust nm em tz =>
    show pairCount (create_customer db nm em tz).1 cid ps ≤ 1
    unfold create_customer
    split_ifs <;> exact h
  | ingest now b =>
    show pairCount (insert_events db now b).1 cid ps ≤ 1
    unfold insert_events
    cases hm : mapE (procEvent db now) b with
    | error e => exact h
    | ok evs => exact h
  | run now p pr =>
    show pairCount (generate_invoices db now p pr).1 cid ps ≤ 1
    unfold generate_invoices
    cases hp : periodBounds p with
    | none => exact h
    | some pspe =>
      obtain ⟨ps', pe⟩ := pspe
      exact pairCount_runCustomers now ps' pe pr _ db 0 cid ps h
  | readUsage c a b => exact h
  | readInvoices c => exact h

/-- C8: in every state reachable from the empty store by any sequence of
the core operations (create customer, ingest events, aggregate usage,
generate invoices, list invoices), at most one invoice exists per
(customer id, period start) pair.  (On this code base the re-generation
path keeps the invariant by *failing*: the `DELETE` raises before a
duplicate could ever be inserted — see C1/C2.) -/
theorem C8_at_most_one_invoice (ops : List Op) (cid : Nat) (ps : String) :
    pairCount (execOps ops) cid ps ≤ 1 := by
  suffices hgen : ∀ db, pairCount db cid ps ≤ 1 →
      pairCount (ops.foldl applyOp db) cid ps ≤ 1 from
    hgen initDB (by simp [pairCount, initDB])
  induction ops with
  | nil => intro db h; exact h
  | cons op rest ih =>
    intro db h
    exact ih _ (pairCount_applyOp db op cid ps h)

/-! ## C7: valid ingestion followed by aggregation -/

theorem insert_events_ok (db : DB) (now : String) (batch : List EventInput)
    (evs : List Event) (hparse : mapE (procEvent db now) batch = .ok evs) :
    insert_events db now batch =
      ({ db with events := db.events ++ evs }, .ok batch.length) := by
  unfold insert_events
  rw [hparse]
  dsimp only
  rw [mapE_ok_length (procEvent db now) batch evs hparse]

/-- C7: for every batch that validates (it parses to the event rows
`evs`), `IngestEvents` returns a count equal to the batch length and
appends exactly `evs`; a subsequent `GetUsage` over an interval covering
all the batch's timestamps, for a customer with no other events in that
interval, reports for each feature exactly the sum of the quantities of
that feature's events of the batch (grouping by exact string equality);
and an event that omits `quantity` is stored with quantity `1.0`. -/
theorem C7_ingest_then_usage (db : DB) (now : String) (cid : Nat) (a b : String)
    (batch : List EventInput) (evs : List Event)
    (hparse : mapE (procEvent db now) batch = .ok evs)
    (hcid : ∀ e ∈ evs, e.customer_id = cid)
    (hwin : ∀ e ∈ evs, strLe a e.ts_event = true ∧ strLt e.ts_event b = true)
    (hquiet : windowEvents db cid a b = []) :
    insert_events db now batch =
      ({ db with events := db.events ++ evs }, .ok batch.length) ∧
    (∀ f, usageLookup (get_usage { db with events := db.events ++ evs } cid a b) f =
      if evs.any (fun e => e.feature == f) then
        some (((evs.filter fun e => e.feature == f).map (·.quantity)).sum)
      else none) ∧
    (∀ (ev : EventInput) (x : Event), procEvent db now ev = .ok x →
      ev.quantity = none → x.quantity = 1) := by
  have hw : windowEvents { db with events := db.events ++ evs } cid a b = evs := by
    unfold windowEvents at hquiet ⊢
    dsimp only
    rw [List.filter_append, hquiet, List.nil_append]
    rw [List.filter_eq_self]
    intro e he
    have h1 := hcid e he
    have h2 := (hwin e he).1
    have h3 := (hwin e he).2
    simp [h1, h2, h3]
  refine ⟨insert_events_ok db now batch evs hparse, ?_, ?_⟩
  · intro f
    unfold get_usage
    rw [hw]
    exact usageLookup_groupRows evs f
  · intro ev x hx hq
    obtain ⟨ocid, ofeat, oqq, ots⟩ := ev
    dsimp only at hq
    subst hq
    cases ocid with
    | none => cases hx
    | some cid' =>
    cases ofeat with
    | none => cases hx
    | some feat =>
    cases ots with
    | none => cases hx
    | some ts =>
    have h1 : pyFloat ((none : Option Json).getD (Json.num 1)) = .ok 1 := rfl
    simp only [procEvent, h1] at hx
    cases hts : fromisoformat ts with
    | none => rw [hts] at hx; cases hx
    | some dt =>
      rw [hts] at hx
      by_cases hc : (db.customers.any fun c => c.id == cid') = true
      · simp [hc] at hx
        cases hx
        rfl
      · simp [hc] at hx

/-- C7 witness: a three-event batch (one omitted quantity defaulting to
1.0, one numeric-string quantity) inserts with count 3 and aggregates to
`api_calls = 4`, `storage = 2.5` over a covering March window. -/
theorem C7_witness :
    mapE (procEvent dbA0 "2024-03-08T00:00:00") batchW7 = .ok evsW7 ∧
    insert_events dbA0 "2024-03-08T00:00:00" batchW7 =
      ({ dbA0 with events := dbA0.events ++ evsW7 }, .ok batchW7.length) ∧
    usageLookup (get_usage { dbA0 with events := dbA0.events ++ evsW7 } 1
      "2024-03-01T00:00:00" "2024-04-01T00:00:00") "api_calls" = some 4 ∧
    usageLookup (get_usage { dbA0 with events := dbA0.events ++ evsW7 } 1
      "2024-03-01T00:00:00" "2024-04-01T00:00:00") "storage" = some (5/2) := by
  have h := C7_ingest_then_usage dbA0 "2024-03-08T00:00:00" 1
    "2024-03-01T00:00:00" "2024-04-01T00:00:00" batchW7 evsW7
    (by decide) (by decide) (by decide) (by decide)
  exact ⟨by decide, h.1, (h.2.1 "api_calls").trans (by decide),
    (h.2.1 "storage").trans (by decide)⟩

/-! ## C10: a zero unit price still invoices every active customer -/

theorem groupRows_eq_nil (es : List Event) : groupRows es = [] ↔ es = [] := by
  unfold groupRows
  rw [List.map_eq_nil_iff, List.dedup_eq_nil, List.map_eq_nil_iff]

theorem insertInvoice_zero (now ps pe : String) (db : DB) (cid : Nat)
    (hfresh : ∀ i ∈ db.invoices, i.id < db.next_invoice_id) :
    insertInvoice now ps pe 0 db cid (get_usage db cid ps pe) =
      zeroStepDB now ps pe db cid := by
  unfold insertInvoice zeroStepDB
  dsimp only
  simp only [mul_zero]
  have htot : (((get_usage db cid ps pe).map
      (fun u => LineItem.mk db.next_invoice_id u.1 u.2 0 0)).map
        (fun x => x.amount)).sum = 0 := by
    rw [List.map_map]
    refine List.sum_eq_zero fun x hx => ?_
    obtain ⟨u, hu, rfl⟩ := List.mem_map.mp hx
    rfl
  rw [htot, DB.mk.injEq]
  refine ⟨rfl, rfl, ?_, rfl, rfl, rfl⟩
  refine (List.map_congr_left ?_).trans (List.map_id _)
  intro i hi
  rw [List.mem_append] at hi
  rcases hi with hi | hi
  · have hne : i.id ≠ db.next_invoice_id := Nat.ne_of_lt (hfresh i hi)
    simp [hne]
  · simp only [List.mem_singleton] at hi
    subst hi
    simp

theorem stepCustomer_zero (now ps pe : String) (db : DB) (cid : Nat)
    (husage : windowEvents db cid ps pe ≠ [])
    (hnoinv : ∀ i ∈ db.invoices, ¬(i.customer_id = cid ∧ i.period_start = ps))
    (hcust : (db.customers.any fun c => c.id == cid) = true)
    (hfresh : ∀ i ∈ db.invoices, i.id < db.next_invoice_id) :
    stepCustomer now ps pe 0 db cid = (zeroStepDB now ps pe db cid, .ok true) := by
  have hOld : db.invoices.filter (fun i => !(i.customer_id == cid && i.period_start == ps)) = db.invoices := by
    rw [List.filter_eq_self]
    intro i hi
    have h := hnoinv i hi
    by_cases h1 : i.customer_id = cid
    · by_cases h2 : i.period_start = ps
      · exact absurd ⟨h1, h2⟩ h
      · simp [h1, h2]
    · simp [h1]
  have hc1 : ¬((get_usage db cid ps pe).isEmpty = true) := by
    intro hemp
    rw [List.isEmpty_iff] at hemp
    unfold get_usage at hemp
    exact husage ((groupRows_eq_nil _).mp hemp)
  have hc2 : ¬(((db.invoices.filter fun i => i.customer_id == cid && i.period_start == ps).any
      fun i => db.line_items.any fun li => li.invoice_id == i.id) = true) := by
    intro hany
    obtain ⟨i, hi, _⟩ := List.any_eq_true.mp hany
    rw [List.mem_filter] at hi
    have hp := hi.2
    rw [Bool.and_eq_true, beq_iff_eq, beq_iff_eq] at hp
    exact hnoinv i hi.1 hp
  unfold stepCustomer
  dsimp only
  rw [if_neg hc1, if_neg hc2, hOld, if_pos hcust,
    insertInvoice_zero now ps pe db cid hfresh]

theorem runCustomers_zero_price (now ps pe : String) (cids : List Nat) :
    ∀ (db : DB) (n : Nat), cids.Nodup →
    (∀ c ∈ cids, windowEvents db c ps pe ≠ []) →
    (∀ c ∈ cids, ∀ i ∈ db.invoices, ¬(i.customer_id = c ∧ i.period_start = ps)) →
    (∀ c ∈ cids, (db.customers.any fun cc => cc.id == c) = true) →
    (∀ i ∈ db.invoices, i.id < db.next_invoice_id) →
    ∃ db', runCustomers now ps pe 0 cids db n = (db', .ok (n + cids.length)) ∧
      db'.events = db.events ∧ db'.customers = db.customers ∧
      (∀ i ∈ db.invoices, i ∈ db'.invoices) ∧
      (∀ c ∈ cids, ∃ i ∈ db'.invoices,
        i.customer_id = c ∧ i.period_start = ps ∧ i.total = 0) ∧
      (∀ i ∈ db'.invoices, i ∈ db.invoices ∨ (i.period_start = ps ∧ i.total = 0)) ∧
      (∀ li ∈ db'.line_items, li ∈ db.line_items ∨
        (li.unit_price = 0 ∧ li.amount = 0)) := by
  induction cids with
  | nil =>
    intro db n _ _ _ _ _
    exact ⟨db, by simp [runCustomers], rfl, rfl, fun i hi => hi,
      fun c hc => absurd hc (List.not_mem_nil c),
      fun i hi => Or.inl hi, fun li hli => Or.inl hli⟩
  | cons c rest ih =>
    intro db n hnd husage hnoinv hcust hfresh
    have hndc := List.nodup_cons.mp hnd
    have hstep := stepCustomer_zero now ps pe db c
      (husage c (List.mem_cons_self c rest))
      (hnoinv c (List.mem_cons_self c rest))
      (hcust c (List.mem_cons_self c rest)) hfresh
    have hmem1 : ∀ i ∈ (zeroStepDB now ps pe db c).invoices,
        i ∈ db.invoices ∨ i = ⟨db.next_invoice_id, c, ps, pe, 0, now⟩ := by
      intro i hi
      unfold zeroStepDB at hi
      rw [List.mem_append] at hi
      rcases hi with hi | hi
      · exact Or.inl hi
      · simp at hi; exact Or.inr hi
    obtain ⟨db', hrun, hev, hcus, hkeep, hex, hchar, hli⟩ :=
      ih (zeroStepDB now ps pe db c) (n + 1) hndc.2
        (fun c' hc' => husage c' (List.mem_cons_of_mem c hc'))
        (by
          intro c' hc' i hi
          rcases hmem1 i hi with hold | hnew
          · exact hnoinv c' (List.mem_cons_of_mem c hc') i hold
          · subst hnew
            rintro ⟨hc1, -⟩
            dsimp only at hc1
            subst hc1
            exact hndc.1 hc')
        (fun c' hc' => hcust c' (List.mem_cons_of_mem c hc'))
        (by
          intro i hi
          rcases hmem1 i hi with hold | hnew
          · exact Nat.lt_succ_of_lt (hfresh i hold)
          · subst hnew; exact Nat.lt_succ_self _)
    refine ⟨db', ?_, hev, hcus, ?_, ?_, ?_, ?_⟩
    · show runCustomers now ps pe 0 (c :: rest) db n = (db', .ok (n + (c :: rest).length))
      unfold runCustomers
      rw [hstep]
      have hlen : n + 1 + rest.length = n + (c :: rest).length := by
        simp [List.length_cons]
        omega
      rw [← hlen]
      exact hrun
    · intro i hi
      exact hkeep i (by unfold zeroStepDB; rw [List.mem_append]; exact Or.inl hi)
    · intro c' hc'
      rcases List.mem_cons.mp hc' with rfl | hc'
      · exact ⟨⟨db.next_invoice_id, c', ps, pe, 0, now⟩,
          hkeep _ (by unfold zeroStepDB; rw [List.mem_append]; simp),
          rfl, rfl, rfl⟩
      · exact hex c' hc'
    · intro i hi
      rcases hchar i hi with hmid | hnew
      · rcases hmem1 i hmid with hold | hnew2
        · exact Or.inl hold
        · subst hnew2; exact Or.inr ⟨rfl, rfl⟩
      · exact Or.inr hnew
    · intro li hli'
      rcases hli li hli' with hmid | hz
      · unfold zeroStepDB at hmid
        rw [List.mem_append] at hmid
        rcases hmid with hold | hnew
        · exact Or.inl hold
        · obtain ⟨u, hu, rfl⟩ := List.mem_map.mp hnew
          exact Or.inr ⟨rfl, rfl⟩
      · exact Or.inr hz

/-- C10 (amended): with `unit_price = 0`, for every state in which no
invoice for the target period start yet exists (otherwise the run
aborts with `IntegrityError`, see the counterexample), every eligible
customer exists, and the invoice-id counter is fresh, `generate_invoices`
succeeds, creates an invoice for every customer having at least one
event in the period — each line item amount and each new total being
`0` — and returns exactly the number of such customers; customers are
never skipped because their monetary amounts are zero. -/
theorem C10_zero_price_invoices (db : DB) (now period ps pe : String)
    (hper : periodBounds period = some (ps, pe))
    (hnoinv : ∀ i ∈ db.invoices, i.period_start ≠ ps)
    (hcust : ∀ c ∈ eligibleCustomers db ps pe,
      (db.customers.any fun cc => cc.id == c) = true)
    (hfresh : ∀ i ∈ db.invoices, i.id < db.next_invoice_id) :
    ∃ db', generate_invoices db now period 0 =
        (db', .ok (eligibleCustomers db ps pe).length) ∧
      (∀ c ∈ eligibleCustomers db ps pe, ∃ i ∈ db'.invoices,
        i.customer_id = c ∧ i.period_start = ps ∧ i.total = 0) ∧
      (∀ li ∈ db'.line_items, li ∈ db.line_items ∨
        (li.unit_price = 0 ∧ li.amount = 0)) ∧
      (∀ i ∈ db'.invoices, i ∈ db.invoices ∨ (i.period_start = ps ∧ i.total = 0)) := by
  have husage : ∀ c ∈ eligibleCustomers db ps pe, windowEvents db c ps pe ≠ [] := by
    intro c hc
    unfold eligibleCustomers at hc
    rw [List.mem_dedup] at hc
    obtain ⟨e, he, rfl⟩ := List.mem_map.mp hc
    rw [List.mem_filter] at he
    refine List.ne_nil_of_mem (a := e) ?_
    unfold windowEvents
    rw [List.mem_filter]
    exact ⟨he.1, by simp [he.2]⟩
  obtain ⟨db', hrun, _, _, _, hex, hchar, hli⟩ :=
    runCustomers_zero_price now ps pe (eligibleCustomers db ps pe) db 0
      (List.nodup_dedup _) husage
      (fun c hc i hi => fun ⟨_, h2⟩ => hnoinv i hi h2) hcust hfresh
  refine ⟨db', ?_, hex, hli, hchar⟩
  unfold generate_invoices
  rw [hper]
  dsimp only
  rw [hrun, Nat.zero_add]

/-- C10 witness: on a store with one customer, one January-2024 event
and no invoices, the zero-price run creates the invoice and returns
count 1. -/
theorem C10_witness :
    (∀ i ∈ dbA1.invoices, i.period_start ≠ "2024-01-01T00:00:00") ∧
    (eligibleCustomers dbA1 "2024-01-01T00:00:00" "2024-02-01T00:00:00").length = 1 ∧
    (∃ db', generate_invoices dbA1 "2024-02-01T00:00:00" "2024-01" 0 =
        (db', .ok (eligibleCustomers dbA1 "2024-01-01T00:00:00"
          "2024-02-01T00:00:00").length) ∧
      (∀ c ∈ eligibleCustomers dbA1 "2024-01-01T00:00:00" "2024-02-01T00:00:00",
        ∃ i ∈ db'.invoices,
          i.customer_id = c ∧ i.period_start = "2024-01-01T00:00:00" ∧ i.total = 0) ∧
      (∀ li ∈ db'.line_items, li ∈ dbA1.line_items ∨
        (li.unit_price = 0 ∧ li.amount = 0)) ∧
      (∀ i ∈ db'.invoices, i ∈ dbA1.invoices ∨
        (i.period_start = "2024-01-01T00:00:00" ∧ i.total = 0))) := by
  refine ⟨by decide, by decide, ?_⟩
  exact C10_zero_price_invoices dbA1 "2024-02-01T00:00:00" "2024-01"
    "2024-01-01T00:00:00" "2024-02-01T00:00:00" (by decide) (by decide)
    (by decide) (by decide)

/-- C10 counterexample: zero-price invoicing does not succeed "for every
state": on a state where the period's only customer already holds an
invoice with line items, `RunInvoices("2024-01", 0)` raises
`IntegrityError` and returns no count, although that customer has an
event in the period. -/
theorem C10_counterexample :
    generate_invoices dbA2 "2024-02-01T00:00:00" "2024-01" 0 =
      (dbA2, .error .integrityError) ∧
    ((dbA2.events.filter fun e =>
        strLe "2024-01-01T00:00:00" e.ts_event &&
        strLt e.ts_event "2024-02-01T00:00:00").map (·.customer_id)) = [1] := by decide
